import Mathlib

/-!
Verification of the metadatabase query GUI notebook
(`eg/query-gui-mongodb.ipynb`).

The notebook wires ipywidgets callbacks to a MongoDB metadata client:

* `authenticate` — builds a `metadatabase.client.Client` from a
  connection string inside `try/except`; on success it populates the
  `db` dropdown options, enables the `query` text field and the
  `search` button, and prints a success message; on failure it prints
  the error to `login_output`.
* `on_select_change` — replaces the `coll` dropdown options with
  `client.collection_names[event["new"]]`.
* `handle_query` — runs `client.query`, deduplicates the result via
  `list(set(result))`, prints either the file listing or a
  "No results." message to `list_out`, and for a non-empty result
  prints a `"..."` placeholder to `cl_out`, calls `iris.load`, and
  replaces the placeholder with the loaded cube list.
* `on_button_click` — reads the widget values, parses the query text
  with `ast.literal_eval`, and calls `handle_query`.

Widget setup: `db` and `coll` dropdowns are created with
`disabled=False` and options `["Log in first..."]`; `query` and
`search` are created with `disabled=True`.

The embedding below is a faithful translation of that code: pure
Python functions become Lean functions, the shared widget/global state
becomes an explicit `GuiState` record threaded through a `step`
function over an `Op` type (one constructor per user action), Python
exceptions become `Except PyError`, and the writes to the three output
regions become an explicit event trace.
-/

/-- A scalar match target in a query filter: a string or an integer
(the notebook's examples use both, e.g. `"air_temperature"` and the
STASH integers). -/
inductive Scalar where
  | str (s : String)
  | int (i : Int)
deriving Repr, DecidableEq

/-- A filter value: a scalar or a list of scalars (the subset of
Python literals the notebook documents for query values). -/
inductive Value where
  | scalar (v : Scalar)
  | list (vs : List Scalar)
deriving Repr, DecidableEq

/-- A query filter: a Python dict mapping dotted metadata field paths
to match targets, modelled as an association list in insertion
order. -/
def QueryFilter : Type := List (String × Value)

instance : DecidableEq QueryFilter := by
  unfold QueryFilter
  infer_instance

/-- Lookup in a Python dict modelled as an association list
(`d[k]`, returning `none` where Python raises `KeyError`). -/
def pyDictGet {β : Type} (m : List (String × β)) (k : String) : Option β :=
  (m.find? (fun p => p.1 == k)).map Prod.snd

/-- The external `metadatabase.client.Client` collaborator: a mapping
from store (database) names to their sub-collection names, and the
query operation returning a list of identifier strings (file paths),
possibly with duplicates. -/
structure Client where
  collection_names : List (String × List String)
  query : String → String → QueryFilter → List String

/-- Python's `list(set(xs))` used by `handle_query` to deduplicate the
raw result list.  Python's set iteration order is unspecified, so the
model picks the canonical duplicate-free sublist; every property
proved about it below (membership, `Nodup`, counts, the underlying
finite set) is insensitive to the order chosen. -/
def pySet (xs : List String) : List String :=
  xs.dedup

/-- Python exceptions that the callbacks can raise. -/
inductive PyError where
  | nameError (n : String)
  | keyError (k : String)
  | parseError
deriving Repr, DecidableEq

/-- One observable effect of `handle_query`: a write to the `list_out`
or `cl_out` output region, or a call into the `iris.load` dataset
loader.  `α` is the (opaque) type of the loaded cube list. -/
inductive Event (α : Type) where
  | listClear
  | listPrint (line : String)
  | listDisplay (items : List String)
  | clClear
  | clClearWait
  | clPrint (line : String)
  | loadCall (paths : List String)
  | clDisplay (cubes : α)
deriving Repr, DecidableEq

/-- The notebook's `handle_query(db_name, coll_name, query_dict)`:
query the client, deduplicate with `list(set(...))`, write the
listing (or "No results.") to `list_out`, and for a non-empty result
write a placeholder to `cl_out`, call `iris.load`, and replace the
placeholder with the loaded cubes.  `load` is the external
`iris.load` collaborator; the return value is the event trace in
program order. -/
def handle_query {α : Type} (load : List String → α) (c : Client)
    (dbName collName : String) (queryDict : QueryFilter) : List (Event α) :=
  let result := pySet (c.query dbName collName queryDict)
  (Event.listClear ::
    (if result.length = 0 then
      [Event.listPrint "No results."]
    else
      [Event.listPrint "Matching files:",
       Event.listDisplay result,
       Event.listPrint "\nIris Cubes:"]))
  ++ (if result.length = 0 then
        []
      else
        [Event.clClear, Event.clPrint "...",
         Event.loadCall result,
         Event.clClearWait, Event.clDisplay (load result)])

/-- The notebook's global state: the `client` global (absent until an
authentication succeeds, as in Python before the `global client`
assignment runs), the traits of the four input widgets, the
`login_output` lines, and the `list_out`/`cl_out`/loader event
trace. -/
structure GuiState (α : Type) where
  client : Option Client
  dbOptions : List String
  dbDisabled : Bool
  dbValue : String
  collOptions : List String
  collDisabled : Bool
  collValue : String
  queryValue : String
  queryDisabled : Bool
  searchDisabled : Bool
  loginOut : List String
  trace : List (Event α)

/-- The state after the widget-setup cell runs: `db` and `coll`
dropdowns enabled with placeholder options, `query` and `search`
disabled, no client, empty outputs. -/
def initState {α : Type} : GuiState α :=
  { client := none
  , dbOptions := ["Log in first..."]
  , dbDisabled := false
  , dbValue := "Log in first..."
  , collOptions := ["Log in first..."]
  , collDisabled := false
  , collValue := "Log in first..."
  , queryValue := ""
  , queryDisabled := true
  , searchDisabled := true
  , loginOut := []
  , trace := [] }

/-- The notebook's `authenticate(b)` callback.  Constructing the
client can raise, so the construction outcome is the `mk` argument;
the `try` body assigns the global, repopulates the `db` options with
the store names, and enables `query` and `search`; the `except` arm
prints the failure to `login_output`; the `else` arm prints the
success message.  The callback itself never raises. -/
def authenticate {α : Type} (mk : Except String Client) (s : GuiState α) :
    GuiState α :=
  match mk with
  | Except.ok c =>
    { s with client := some c
           , dbOptions := c.collection_names.map Prod.fst
           , queryDisabled := false
           , searchDisabled := false
           , loginOut := s.loginOut ++ ["Successfully logged in."] }
  | Except.error e =>
    { s with loginOut :=
        s.loginOut ++ ["Login unsuccessful. Original error was:\n" ++ e] }

/-- The notebook's `on_select_change(event)` callback: replace the
`coll` options with `client.collection_names[event["new"]]`.  Before
any successful authentication the global `client` does not exist and
Python raises `NameError`; an unknown store name raises `KeyError`. -/
def on_select_change {α : Type} (newVal : String) (s : GuiState α) :
    Except PyError (GuiState α) :=
  match s.client with
  | none => Except.error (PyError.nameError "client")
  | some c =>
    match pyDictGet c.collection_names newVal with
    | none => Except.error (PyError.keyError newVal)
    | some colls => Except.ok { s with collOptions := colls }

/-- Decimal digit character for a digit value below ten. -/
def digitChar (d : Nat) : Char := Char.ofNat (48 + d)

/-- Whether a character is a decimal digit. -/
def isDigitCh (c : Char) : Bool := 48 ≤ c.toNat && c.toNat ≤ 57

/-- Numeric value of a digit character. -/
def digitVal (c : Char) : Nat := c.toNat - 48

/-- Decimal digits of a natural number, most significant first
(Python's `repr` of a non-negative `int`). -/
def natChars (n : Nat) : List Char :=
  if h : n < 10 then [digitChar n]
  else natChars (n / 10) ++ [digitChar (n % 10)]
  decreasing_by
    exact Nat.div_lt_self (Nat.lt_of_lt_of_le (by decide) (Nat.le_of_not_lt h)) (by decide)

/-- Python's `repr` of an `int`. -/
def intChars : Int → List Char
  | Int.ofNat n => natChars n
  | Int.negSucc m => '-' :: natChars (m + 1)

/-- The quote character Python's `repr` picks for a string: single
quotes unless the string contains a single quote and no double
quote. -/
def chooseQuote (s : List Char) : Char :=
  if s.contains '\'' && !(s.contains '"') then '"' else '\''

/-- How Python's `repr` writes one character of a string quoted with
`q`: the backslash and the active quote are escaped, everything else
(printable ASCII, the model's domain) is written verbatim. -/
def escChar (q c : Char) : List Char :=
  if c = '\\' then ['\\', '\\']
  else if c = q then ['\\', q]
  else [c]

/-- Python's `repr` of a (printable-ASCII) string. -/
def strChars (s : List Char) : List Char :=
  let q := chooseQuote s
  q :: (s.flatMap (escChar q) ++ [q])

/-- Python's `repr` of a scalar. -/
def scalarChars : Scalar → List Char
  | Scalar.str s => strChars s.toList
  | Scalar.int i => intChars i

/-- Python's `repr` of the scalars inside a list literal, separated by
a comma and a space. -/
def itemsChars : List Scalar → List Char
  | [] => []
  | [v] => scalarChars v
  | v :: vs => scalarChars v ++ (',' :: ' ' :: itemsChars vs)

/-- Python's `repr` of a filter value. -/
def valueChars : Value → List Char
  | Value.scalar v => scalarChars v
  | Value.list vs => '[' :: (itemsChars vs ++ [']'])

/-- Python's `repr` of one `key: value` dict entry. -/
def entryChars (e : String × Value) : List Char :=
  strChars e.1.toList ++ (':' :: ' ' :: valueChars e.2)

/-- Python's `repr` of the entries of a dict, separated by a comma and
a space. -/
def entriesChars : List (String × Value) → List Char
  | [] => []
  | [e] => entryChars e
  | e :: es => entryChars e ++ (',' :: ' ' :: entriesChars es)

/-- Python's `repr` of a whole filter dict. -/
def filterChars (f : QueryFilter) : List Char :=
  '\x7b' :: (entriesChars f ++ ['\x7d'])

/-- The textual literal form of a filter mapping, as Python would
print it. -/
def filterText (f : QueryFilter) : String :=
  String.mk (filterChars f)

/-- Skip the spaces `ast.literal_eval` tolerates between tokens. -/
def skipSp (l : List Char) : List Char := l.dropWhile (· = ' ')

/-- Parse the body of a string literal quoted with `q` up to its
closing quote, handling the backslash escapes `repr` emits.  Returns
the string's characters and the rest of the input. -/
def parseStrBody (q : Char) : List Char → Option (List Char × List Char)
  | [] => none
  | c :: rest =>
    if c = q then some ([], rest)
    else if c = '\\' then
      match rest with
      | [] => none
      | e :: rest2 =>
        if e = '\\' ∨ e = '\'' ∨ e = '"' then
          match parseStrBody q rest2 with
          | some (body, rem) => some (e :: body, rem)
          | none => none
        else none
    else
      match parseStrBody q rest with
      | some (body, rem) => some (c :: body, rem)
      | none => none

/-- Parse a run of decimal digits as a natural number. -/
def parseNatChars (l : List Char) : Option (Nat × List Char) :=
  let digs := l.takeWhile isDigitCh
  if digs.isEmpty then none
  else some (digs.foldl (fun a c => a * 10 + digitVal c) 0, l.dropWhile isDigitCh)

/-- Parse an optionally negated integer literal. -/
def parseIntChars (l : List Char) : Option (Int × List Char) :=
  match l with
  | [] => none
  | c :: rest =>
    if c = '-' then (parseNatChars rest).map (fun p => (-(p.1 : Int), p.2))
    else (parseNatChars (c :: rest)).map (fun p => ((p.1 : Int), p.2))

/-- Parse a scalar literal: a quoted string or an integer. -/
def parseScalarChars (l : List Char) : Option (Scalar × List Char) :=
  match l with
  | [] => none
  | c :: rest =>
    if c = '\'' ∨ c = '"' then
      (parseStrBody c rest).map (fun p => (Scalar.str (String.mk p.1), p.2))
    else if c = '-' ∨ isDigitCh c then
      (parseIntChars (c :: rest)).map (fun p => (Scalar.int p.1, p.2))
    else none

/-- Parse the comma-separated scalars of a non-empty list literal up
to the closing bracket.  `fuel` bounds the number of items. -/
def parseItemsAux : Nat → List Char → Option (List Scalar × List Char)
  | 0, _ => none
  | fuel + 1, l =>
    match parseScalarChars l with
    | none => none
    | some (v, rest) =>
      match skipSp rest with
      | [] => none
      | c :: rest2 =>
        if c = ']' then some ([v], rest2)
        else if c = ',' then
          match parseItemsAux fuel (skipSp rest2) with
          | some (vs, rem) => some (v :: vs, rem)
          | none => none
        else none

/-- Parse a list literal. -/
def parseListChars (l : List Char) : Option (List Scalar × List Char) :=
  match l with
  | [] => none
  | c :: rest =>
    if c = '[' then
      match skipSp rest with
      | [] => none
      | c2 :: rest2 =>
        if c2 = ']' then some ([], rest2)
        else parseItemsAux ((c2 :: rest2).length + 1) (c2 :: rest2)
    else none

/-- Parse a filter value: a list literal or a scalar literal. -/
def parseValueChars (l : List Char) : Option (Value × List Char) :=
  match l with
  | [] => none
  | c :: rest =>
    if c = '[' then
      (parseListChars (c :: rest)).map (fun p => (Value.list p.1, p.2))
    else
      (parseScalarChars (c :: rest)).map (fun p => (Value.scalar p.1, p.2))

/-- Parse a dict key, which in the filter subset is a string
literal. -/
def parseKeyChars (l : List Char) : Option (String × List Char) :=
  match l with
  | [] => none
  | c :: rest =>
    if c = '\'' ∨ c = '"' then
      (parseStrBody c rest).map (fun p => (String.mk p.1, p.2))
    else none

/-- Parse the comma-separated `key: value` entries of a non-empty dict
literal up to the closing brace.  `fuel` bounds the number of
entries. -/
def parseEntriesAux : Nat → List Char → Option (List (String × Value) × List Char)
  | 0, _ => none
  | fuel + 1, l =>
    match parseKeyChars l with
    | none => none
    | some (k, rest) =>
      match skipSp rest with
      | [] => none
      | c :: rest2 =>
        if c = ':' then
          match parseValueChars (skipSp rest2) with
          | none => none
          | some (v, rest3) =>
            match skipSp rest3 with
            | [] => none
            | c2 :: rest4 =>
              if c2 = '\x7d' then some ([(k, v)], rest4)
              else if c2 = ',' then
                match parseEntriesAux fuel (skipSp rest4) with
                | some (es, rem) => some ((k, v) :: es, rem)
                | none => none
              else none
        else none

/-- The notebook's `literal_eval(query.value)`: `ast.literal_eval`
specialised to the filter subset the notebook documents (a dict
literal with string keys and scalar or list-of-scalar values).
Returns `none` where `literal_eval` raises, or where the literal is
outside the filter subset. -/
def literalEvalFilter (s : String) : Option QueryFilter :=
  match skipSp s.toList with
  | [] => none
  | c :: rest =>
    if c = '\x7b' then
      match skipSp rest with
      | [] => none
      | c2 :: rem =>
        if c2 = '\x7d' then (if (skipSp rem).isEmpty then some [] else none)
        else
          match parseEntriesAux ((c2 :: rem).length + 1) (c2 :: rem) with
          | some (es, rem2) => if (skipSp rem2).isEmpty then some es else none
          | none => none
    else none

/-- The notebook's `on_button_click(b)` callback: read the widget
values, parse the query text with `literal_eval` (a parse failure
propagates uncaught — nothing in the submission path handles it), and
run `handle_query`, whose `client.query` dereferences the global
client. -/
def on_button_click {α : Type} (load : List String → α) (s : GuiState α) :
    Except PyError (GuiState α) :=
  match literalEvalFilter s.queryValue with
  | none => Except.error PyError.parseError
  | some queryDict =>
    match s.client with
    | none => Except.error (PyError.nameError "client")
    | some c =>
      Except.ok { s with trace :=
        s.trace ++ handle_query load c s.dbValue s.collValue queryDict }

/-- One user action on the notebook's widgets. -/
inductive Op where
  | login (mk : Except String Client)
  | selectStore (v : String)
  | selectColl (v : String)
  | setQueryText (t : String)
  | clickSearch

/-- One event-loop step: run the callback the action triggers.
`Op.selectStore` first sets the dropdown's value trait, then fires
the `observe` callback; `Op.selectColl` and `Op.setQueryText` only
set value traits (no callback is wired to them); `Op.login` and
`Op.clickSearch` run their button handlers.  An `Except.error` result
is an exception propagating out of the callback to the hosting
environment. -/
def step {α : Type} (load : List String → α) :
    Op → GuiState α → Except PyError (GuiState α)
  | Op.login mk, s => Except.ok (authenticate mk s)
  | Op.selectStore v, s => on_select_change v { s with dbValue := v }
  | Op.selectColl v, s => Except.ok { s with collValue := v }
  | Op.setQueryText t, s => Except.ok { s with queryValue := t }
  | Op.clickSearch, s => on_button_click load s

/-- A concrete client used to instantiate the theorems below: two
stores with their sub-collections, and a query operation returning a
duplicated identifier list. -/
def egClient : Client :=
  { collection_names := [("S1", ["c1", "c2"]), ("S2", ["d1", "d2", "d3"])]
  , query := fun _ _ _ => ["a.pp", "a.pp", "b.pp"] }

/-- A concrete client whose queries return no matches. -/
def egEmptyClient : Client :=
  { collection_names := [("S1", ["c1"])]
  , query := fun _ _ _ => [] }

/-- A concrete stand-in for the `iris.load` collaborator, rendering
the loaded paths as a string. -/
def egLoad (paths : List String) : String :=
  String.intercalate ";" paths

/-- Printable ASCII character (space through tilde).  The serializer
models Python `repr` of strings faithfully exactly on this range:
control and non-ASCII characters would be escaped differently. -/
def printableAscii (c : Char) : Prop := 32 ≤ c.toNat ∧ c.toNat ≤ 126

instance (c : Char) : Decidable (printableAscii c) := by
  unfold printableAscii
  infer_instance

/-- An ASCII-scalar filter value: a scalar whose text, if it is a
string, is printable ASCII. -/
def asciiScalarValue : Value → Prop
  | Value.scalar (Scalar.str s) => ∀ c ∈ s.toList, printableAscii c
  | Value.scalar (Scalar.int _) => True
  | Value.list _ => False

instance : DecidablePred asciiScalarValue := by
  intro v
  cases v with
  | scalar sc =>
    cases sc with
    | str s =>
      exact inferInstanceAs (Decidable (∀ c ∈ s.toList, printableAscii c))
    | int i => exact isTrue trivial
  | list vs => exact isFalse id

/-- A filter entry of the literal-expression subset the round-trip
property quantifies over: a printable-ASCII key (a dotted metadata
field path) and an ASCII-scalar value. -/
def asciiScalarEntry (e : String × Value) : Prop :=
  (∀ c ∈ e.1.toList, printableAscii c) ∧ asciiScalarValue e.2

instance (e : String × Value) : Decidable (asciiScalarEntry e) := by
  unfold asciiScalarEntry
  infer_instance

/-- C1: for every raw identifier list returned by the query
operation, `handle_query` deduplicates it via `list(set(...))` before
display: the displayed list is the deduplicated one, it contains each
distinct identifier exactly once with duplicate counts and insertion
order discarded, and on the input `["a.pp", "a.pp", "b.pp"]` the
deduplicated result set is exactly `{"a.pp", "b.pp"}`. -/
theorem handle_query_deduplicates {α : Type} (load : List String → α)
    (c : Client) (dbName collName : String) (q : QueryFilter)
    (h : c.query dbName collName q ≠ []) :
    Event.listDisplay (pySet (c.query dbName collName q)) ∈
      handle_query load c dbName collName q
    ∧ (∀ raw : List String, (pySet raw).Nodup
        ∧ (∀ a, a ∈ pySet raw ↔ a ∈ raw)
        ∧ ∀ a ∈ raw, (pySet raw).count a = 1)
    ∧ (pySet ["a.pp", "a.pp", "b.pp"]).toFinset
        = ({"a.pp", "b.pp"} : Finset String) := by
  refine ⟨?_, ?_, by decide⟩
  · have hne : ¬ (pySet (c.query dbName collName q)).length = 0 := by
      simp [pySet, List.length_eq_zero, List.dedup_eq_nil, h]
    simp [handle_query, hne]
  · intro raw
    refine ⟨List.nodup_dedup raw, fun a => List.mem_dedup, fun a ha => ?_⟩
    simp [pySet, List.count_dedup, ha]

/-- Closed instance of `handle_query_deduplicates` at the example
client, whose query returns `["a.pp", "a.pp", "b.pp"]`. -/
theorem handle_query_deduplicates_witness :
    egClient.query "S1" "c1" [] ≠ []
    ∧ (Event.listDisplay (pySet (egClient.query "S1" "c1" [])) ∈
        handle_query egLoad egClient "S1" "c1" []
      ∧ (∀ raw : List String, (pySet raw).Nodup
          ∧ (∀ a, a ∈ pySet raw ↔ a ∈ raw)
          ∧ ∀ a ∈ raw, (pySet raw).count a = 1)
      ∧ (pySet ["a.pp", "a.pp", "b.pp"]).toFinset
          = ({"a.pp", "b.pp"} : Finset String)) :=
  ⟨by decide, handle_query_deduplicates egLoad egClient "S1" "c1" [] (by decide)⟩

/-- C2: a query whose raw result list is empty makes `handle_query`
write exactly the cleared listing region with the "No results."
message, and the dataset loader is never called. -/
theorem handle_query_empty_no_decode {α : Type} (load : List String → α)
    (c : Client) (dbName collName : String) (q : QueryFilter)
    (h : c.query dbName collName q = []) :
    handle_query load c dbName collName q
      = [Event.listClear, Event.listPrint "No results."]
    ∧ ∀ ps, Event.loadCall ps ∉ handle_query load c dbName collName q := by
  have h1 : handle_query load c dbName collName q
      = [Event.listClear, Event.listPrint "No results."] := by
    simp [handle_query, pySet, h]
  refine ⟨h1, fun ps hmem => ?_⟩
  rw [h1] at hmem
  simp at hmem

/-- Closed instance of `handle_query_empty_no_decode` at a client that
returns no matches. -/
theorem handle_query_empty_no_decode_witness :
    egEmptyClient.query "S1" "c1" [] = []
    ∧ (handle_query egLoad egEmptyClient "S1" "c1" []
        = [Event.listClear, Event.listPrint "No results."]
      ∧ ∀ ps, Event.loadCall ps ∉ handle_query egLoad egEmptyClient "S1" "c1" []) :=
  ⟨rfl, handle_query_empty_no_decode egLoad egEmptyClient "S1" "c1" [] rfl⟩

/-- C8: for a non-empty deduplicated identifier list, `handle_query`
writes the `"..."` placeholder to the dataset region, then calls the
loader on the full deduplicated list, then clears the placeholder and
displays the loaded collection — in that order. -/
theorem handle_query_renders_datasets {α : Type} (load : List String → α)
    (c : Client) (dbName collName : String) (q : QueryFilter)
    (h : pySet (c.query dbName collName q) ≠ []) :
    List.Sublist
      [Event.clPrint "...",
       Event.loadCall (pySet (c.query dbName collName q)),
       Event.clClearWait,
       Event.clDisplay (load (pySet (c.query dbName collName q)))]
      (handle_query load c dbName collName q) := by
  have hne : ¬ (pySet (c.query dbName collName q)).length = 0 := by
    simpa [List.length_eq_zero] using h
  rw [handle_query]
  simp only [hne, if_false, if_neg hne]
  refine List.Sublist.trans ?_ (List.sublist_append_right _ _)
  exact List.sublist_cons_of_sublist _ (List.Sublist.refl _)

/-- Closed instance of `handle_query_renders_datasets` at the example
client. -/
theorem handle_query_renders_datasets_witness :
    pySet (egClient.query "S1" "c1" []) ≠ []
    ∧ List.Sublist
        [Event.clPrint "...",
         Event.loadCall (pySet (egClient.query "S1" "c1" [])),
         Event.clClearWait,
         Event.clDisplay (egLoad (pySet (egClient.query "S1" "c1" [])))]
        (handle_query egLoad egClient "S1" "c1" []) :=
  ⟨by decide, handle_query_renders_datasets egLoad egClient "S1" "c1" [] (by decide)⟩

/-- C5: selecting store `S1` and then store `S2` replaces the
sub-collection options with exactly the sub-collections the client's
`collection_names` mapping gives for `S2`. -/
theorem select_store_replaces_coll_options {α : Type}
    (load : List String → α) (s : GuiState α) (c : Client)
    (S1 S2 : String) (colls1 colls2 : List String)
    (hc : s.client = some c)
    (h1 : pyDictGet c.collection_names S1 = some colls1)
    (h2 : pyDictGet c.collection_names S2 = some colls2) :
    ∃ s1 s2 : GuiState α,
      step load (Op.selectStore S1) s = Except.ok s1
      ∧ s1.collOptions = colls1
      ∧ step load (Op.selectStore S2) s1 = Except.ok s2
      ∧ s2.collOptions = colls2 := by
  refine ⟨{ s with dbValue := S1, collOptions := colls1 },
          { s with dbValue := S2, collOptions := colls2 }, ?_, rfl, ?_, rfl⟩ <;>
    simp [step, on_select_change, hc, h1, h2]

/-- Closed instance of `select_store_replaces_coll_options` at the
example client, selecting `"S1"` then `"S2"`. -/
theorem select_store_replaces_coll_options_witness :
    (authenticate (Except.ok egClient) (initState : GuiState String)).client
        = some egClient
    ∧ pyDictGet egClient.collection_names "S1" = some ["c1", "c2"]
    ∧ pyDictGet egClient.collection_names "S2" = some ["d1", "d2", "d3"]
    ∧ ∃ s1 s2 : GuiState String,
        step egLoad (Op.selectStore "S1")
            (authenticate (Except.ok egClient) initState) = Except.ok s1
        ∧ s1.collOptions = ["c1", "c2"]
        ∧ step egLoad (Op.selectStore "S2") s1 = Except.ok s2
        ∧ s2.collOptions = ["d1", "d2", "d3"] :=
  ⟨rfl, by decide, by decide,
    select_store_replaces_coll_options egLoad
      (authenticate (Except.ok egClient) initState) egClient
      "S1" "S2" ["c1", "c2"] ["d1", "d2", "d3"] rfl (by decide) (by decide)⟩

/-- C3 counterexample: after a failed authentication from the
widget-setup state, the store selector is not disabled (nor is the
sub-collection selector) — the claim that a failed authentication
leaves all three of store selector, sub-collection selector and query
input disabled is false, because the two dropdowns are created with
`disabled=False` and `authenticate` never touches their flags. -/
theorem failed_login_selectors_counterexample :
    ¬ ((authenticate (Except.error "bad password")
          (initState : GuiState String)).dbDisabled = true
       ∧ (authenticate (Except.error "bad password")
            (initState : GuiState String)).collDisabled = true
       ∧ (authenticate (Except.error "bad password")
            (initState : GuiState String)).queryDisabled = true) := by
  intro h
  exact Bool.false_ne_true h.1

/-- C3 amended: a failed authentication leaves every enable/disable
flag untouched; in particular, from the widget-setup state it leaves
the query input and the search button disabled, while the store and
sub-collection selectors remain enabled (they are created enabled and
never disabled). -/
theorem failed_login_flags {α : Type} (load : List String → α)
    (s : GuiState α) (e : String) :
    step load (Op.login (Except.error e)) s
        = Except.ok (authenticate (Except.error e) s)
    ∧ (authenticate (Except.error e) s).queryDisabled = s.queryDisabled
    ∧ (authenticate (Except.error e) s).searchDisabled = s.searchDisabled
    ∧ (authenticate (Except.error e) s).dbDisabled = s.dbDisabled
    ∧ (authenticate (Except.error e) s).collDisabled = s.collDisabled
    ∧ (authenticate (Except.error e) (initState : GuiState α)).queryDisabled = true
    ∧ (authenticate (Except.error e) (initState : GuiState α)).searchDisabled = true
    ∧ (authenticate (Except.error e) (initState : GuiState α)).dbDisabled = false
    ∧ (authenticate (Except.error e) (initState : GuiState α)).collDisabled = false :=
  ⟨rfl, rfl, rfl, rfl, rfl, rfl, rfl, rfl, rfl⟩

/-- C6: any client-construction error is caught — the login callback
returns normally — and the error text is appended to the login output
region; a successful construction re-enables the query input and the
search button and populates the store list with the client's store
names. -/
theorem authenticate_catches_errors {α : Type} (load : List String → α)
    (s : GuiState α) (e : String) (c : Client) :
    step load (Op.login (Except.error e)) s
        = Except.ok (authenticate (Except.error e) s)
    ∧ (authenticate (Except.error e) s).loginOut
        = s.loginOut ++ ["Login unsuccessful. Original error was:\n" ++ e]
    ∧ (authenticate (Except.error e) s).client = s.client
    ∧ (authenticate (Except.ok c) s).queryDisabled = false
    ∧ (authenticate (Except.ok c) s).searchDisabled = false
    ∧ (authenticate (Except.ok c) s).dbOptions
        = c.collection_names.map Prod.fst
    ∧ (authenticate (Except.ok c) s).loginOut
        = s.loginOut ++ ["Successfully logged in."] :=
  ⟨rfl, rfl, rfl, rfl, rfl, rfl, rfl⟩

/-- C7: when the query text is not a literal the filter parser
accepts, the search-button handler propagates the parse failure as an
uncaught exception — it returns no new state and writes no message to
any output region. -/
theorem parse_failure_propagates {α : Type} (load : List String → α)
    (s : GuiState α) (h : literalEvalFilter s.queryValue = none) :
    step load Op.clickSearch s = Except.error PyError.parseError := by
  simp [step, on_button_click, h]

/-- Closed instance of `parse_failure_propagates` at the query text
`"not a dict"`, which `literal_eval` rejects. -/
theorem parse_failure_propagates_witness :
    literalEvalFilter
        ({ (initState : GuiState String) with queryValue := "not a dict" }).queryValue
      = none
    ∧ step egLoad Op.clickSearch
        { (initState : GuiState String) with queryValue := "not a dict" }
      = Except.error PyError.parseError :=
  ⟨by decide,
   parse_failure_propagates egLoad
     { (initState : GuiState String) with queryValue := "not a dict" } (by decide)⟩

/-- C9: the two dropdown selectors are created enabled and no step of
the program ever changes their flags; the query input and search
button are created disabled, and the only step that changes their
flags is a successful login, which enables both. -/
theorem disabled_flags_invariant {α : Type} (load : List String → α)
    (op : Op) (s s' : GuiState α)
    (hstep : step load op s = Except.ok s') :
    ((initState : GuiState α).dbDisabled = false
      ∧ (initState : GuiState α).collDisabled = false
      ∧ (initState : GuiState α).queryDisabled = true
      ∧ (initState : GuiState α).searchDisabled = true)
    ∧ s'.dbDisabled = s.dbDisabled
    ∧ s'.collDisabled = s.collDisabled
    ∧ ((s'.queryDisabled ≠ s.queryDisabled ∨ s'.searchDisabled ≠ s.searchDisabled) →
        ∃ c : Client, op = Op.login (Except.ok c)
          ∧ s'.queryDisabled = false ∧ s'.searchDisabled = false) := by
  refine ⟨⟨rfl, rfl, rfl, rfl⟩, ?_⟩
  cases op with
  | login mk =>
    cases mk with
    | ok c =>
      simp only [step, Except.ok.injEq] at hstep
      subst hstep
      exact ⟨rfl, rfl, fun _ => ⟨c, rfl, rfl, rfl⟩⟩
    | error e =>
      simp only [step, Except.ok.injEq] at hstep
      subst hstep
      exact ⟨rfl, rfl, by simp [authenticate]⟩
  | selectStore v =>
    simp only [step, on_select_change] at hstep
    split at hstep
    · cases hstep
    · split at hstep
      · cases hstep
      · simp only [Except.ok.injEq] at hstep
        subst hstep
        exact ⟨rfl, rfl, by simp⟩
  | selectColl v =>
    simp only [step, Except.ok.injEq] at hstep
    subst hstep
    exact ⟨rfl, rfl, by simp⟩
  | setQueryText t =>
    simp only [step, Except.ok.injEq] at hstep
    subst hstep
    exact ⟨rfl, rfl, by simp⟩
  | clickSearch =>
    simp only [step, on_button_click] at hstep
    split at hstep
    · cases hstep
    · split at hstep
      · cases hstep
      · simp only [Except.ok.injEq] at hstep
        subst hstep
        exact ⟨rfl, rfl, by simp⟩

/-- Closed instance of `disabled_flags_invariant` at a successful
login from the widget-setup state. -/
theorem disabled_flags_invariant_witness :
    step egLoad (Op.login (Except.ok egClient)) (initState : GuiState String)
      = Except.ok (authenticate (Except.ok egClient) initState)
    ∧ (((initState : GuiState String).dbDisabled = false
        ∧ (initState : GuiState String).collDisabled = false
        ∧ (initState : GuiState String).queryDisabled = true
        ∧ (initState : GuiState String).searchDisabled = true)
      ∧ (authenticate (Except.ok egClient)
            (initState : GuiState String)).dbDisabled
          = (initState : GuiState String).dbDisabled
      ∧ (authenticate (Except.ok egClient)
            (initState : GuiState String)).collDisabled
          = (initState : GuiState String).collDisabled
      ∧ (((authenticate (Except.ok egClient)
              (initState : GuiState String)).queryDisabled
            ≠ (initState : GuiState String).queryDisabled
          ∨ (authenticate (Except.ok egClient)
                (initState : GuiState String)).searchDisabled
              ≠ (initState : GuiState String).searchDisabled) →
          ∃ c : Client, Op.login (Except.ok egClient) = Op.login (Except.ok c)
            ∧ (authenticate (Except.ok egClient)
                  (initState : GuiState String)).queryDisabled = false
            ∧ (authenticate (Except.ok egClient)
                  (initState : GuiState String)).searchDisabled = false)) :=
  ⟨rfl, disabled_flags_invariant egLoad (Op.login (Except.ok egClient))
          initState (authenticate (Except.ok egClient) initState) rfl⟩

/-- C10: changing the store selector before any authentication has
succeeded makes the selection callback dereference the missing global
client and raise `NameError`; the widget-setup state has no client; a
prior client (established only by a successful `authenticate`) is a
necessary precondition for `on_select_change` to run without
raising. -/
theorem select_before_login_name_error {α : Type} (load : List String → α)
    (v : String) (s : GuiState α) (h : s.client = none) :
    step load (Op.selectStore v) s = Except.error (PyError.nameError "client")
    ∧ (initState : GuiState α).client = none
    ∧ (∀ (t t' : GuiState α) (w : String),
        step load (Op.selectStore w) t = Except.ok t' → t.client ≠ none)
    ∧ ∀ c : Client, (authenticate (Except.ok c) s).client = some c := by
  refine ⟨by simp [step, on_select_change, h], rfl, ?_, fun c => rfl⟩
  intro t t' w hstep hnone
  simp [step, on_select_change, hnone] at hstep

/-- Closed instance of `select_before_login_name_error` at the
widget-setup state, which has no client. -/
theorem select_before_login_name_error_witness :
    (initState : GuiState String).client = none
    ∧ (step egLoad (Op.selectStore "S1") (initState : GuiState String)
        = Except.error (PyError.nameError "client")
      ∧ (initState : GuiState String).client = none
      ∧ (∀ (t t' : GuiState String) (w : String),
          step egLoad (Op.selectStore w) t = Except.ok t' → t.client ≠ none)
      ∧ ∀ c : Client,
          (authenticate (Except.ok c) (initState : GuiState String)).client
            = some c) :=
  ⟨rfl, select_before_login_name_error egLoad "S1" initState rfl⟩

/-- Digit characters are digits and carry their value. -/
theorem digitChar_facts : ∀ d < 10,
    isDigitCh (digitChar d) = true ∧ digitVal (digitChar d) = d := by
  decide

/-- The decimal expansion of a natural number is never empty. -/
theorem natChars_ne_nil (n : Nat) : natChars n ≠ [] := by
  rw [natChars]
  split
  · exact List.cons_ne_nil _ _
  · exact List.append_ne_nil_of_right_ne_nil _ (List.cons_ne_nil _ _)

/-- Every character of a decimal expansion is a digit. -/
theorem natChars_digits (n : Nat) : ∀ c ∈ natChars n, isDigitCh c = true := by
  induction n using Nat.strong_induction_on with
  | _ n ih =>
    rw [natChars]
    split
    · intro c hc
      rw [List.mem_singleton] at hc
      subst hc
      exact (digitChar_facts n (by omega)).1
    · intro c hc
      rcases List.mem_append.mp hc with h | h
      · exact ih (n / 10) (Nat.div_lt_self (by omega) (by omega)) c h
      · rw [List.mem_singleton] at h
        subst h
        exact (digitChar_facts (n % 10) (Nat.mod_lt n (by omega))).1

/-- Folding the digit-accumulation step over a decimal expansion
recovers the number. -/
theorem natChars_foldl (n : Nat) : ∀ a : Nat,
    (natChars n).foldl (fun a c => a * 10 + digitVal c) a
      = a * 10 ^ (natChars n).length + n := by
  induction n using Nat.strong_induction_on with
  | _ n ih =>
    intro a
    rw [natChars]
    split
    · next h =>
      simp only [List.foldl_cons, List.foldl_nil, List.length_singleton]
      rw [(digitChar_facts n (by omega)).2]
      ring
    · next h =>
      rw [List.foldl_append, List.length_append]
      rw [ih (n / 10) (Nat.div_lt_self (by omega) (by omega)) a]
      simp only [List.foldl_cons, List.foldl_nil, List.length_singleton]
      rw [(digitChar_facts (n % 10) (Nat.mod_lt n (by omega))).2]
      calc (a * 10 ^ (natChars (n / 10)).length + n / 10) * 10 + n % 10
          = a * (10 ^ (natChars (n / 10)).length * 10)
              + (n / 10 * 10 + n % 10) := by ring
        _ = a * 10 ^ ((natChars (n / 10)).length + 1) + n := by
              rw [pow_succ]
              omega

/-- A run of characters satisfying `p` followed by input whose head
fails `p` splits cleanly under `takeWhile`/`dropWhile`. -/
theorem takeWhile_dropWhile_append {p : Char → Bool} {A B : List Char}
    (hA : ∀ c ∈ A, p c = true)
    (hB : ∀ c, B.head? = some c → p c = false) :
    (A ++ B).takeWhile p = A ∧ (A ++ B).dropWhile p = B := by
  induction A with
  | nil =>
    simp only [List.nil_append]
    cases B with
    | nil => simp
    | cons b bs =>
      have hb := hB b rfl
      constructor
      · simp [List.takeWhile_cons, hb]
      · simp [List.dropWhile_cons, hb]
  | cons a as ih =>
    have ha : p a = true := hA a (List.mem_cons_self a as)
    have ihs := ih (fun c hc => hA c (List.mem_cons_of_mem a hc))
    constructor
    · simp [List.takeWhile_cons, ha, ihs.1]
    · simp [List.dropWhile_cons, ha, ihs.2]

/-- Parsing a serialized natural number recovers it, provided the
following input does not start with another digit. -/
theorem parseNatChars_round (n : Nat) (rest : List Char)
    (hrest : ∀ c, rest.head? = some c → isDigitCh c = false) :
    parseNatChars (natChars n ++ rest) = some (n, rest) := by
  obtain ⟨h1, h2⟩ := takeWhile_dropWhile_append (natChars_digits n) hrest
  rw [parseNatChars]
  simp only [h1, h2]
  rw [if_neg (by simp [List.isEmpty_iff, natChars_ne_nil n])]
  have h3 := natChars_foldl n 0
  simp only [Nat.zero_mul, Nat.zero_add] at h3
  rw [h3]

/-- Parsing a serialized integer recovers it, provided the following
input does not start with a digit. -/
theorem parseIntChars_round (i : Int) (rest : List Char)
    (hrest : ∀ c, rest.head? = some c → isDigitCh c = false) :
    parseIntChars (intChars i ++ rest) = some (i, rest) := by
  cases i with
  | ofNat n =>
    obtain ⟨c, cs, hcons⟩ : ∃ c cs, natChars n = c :: cs := by
      cases h : natChars n with
      | nil => exact absurd h (natChars_ne_nil n)
      | cons c cs => exact ⟨c, cs, rfl⟩
    have hc : isDigitCh c = true :=
      natChars_digits n c (by rw [hcons]; exact List.mem_cons_self c cs)
    have hcne : c ≠ '-' := by
      intro h
      rw [h] at hc
      exact absurd hc (by decide)
    show parseIntChars (natChars n ++ rest) = some ((n : Int), rest)
    rw [hcons]
    show parseIntChars (c :: (cs ++ rest)) = some ((n : Int), rest)
    rw [parseIntChars, if_neg hcne, ← List.cons_append, ← hcons,
        parseNatChars_round n rest hrest]
    rfl
  | negSucc m =>
    show parseIntChars ('-' :: (natChars (m + 1) ++ rest))
        = some (Int.negSucc m, rest)
    rw [parseIntChars, if_pos rfl, parseNatChars_round (m + 1) rest hrest]
    simp [Int.negSucc_eq]

/-- The quote `repr` picks is one of the two quote characters. -/
theorem chooseQuote_spec (l : List Char) :
    chooseQuote l = '\'' ∨ chooseQuote l = '"' := by
  rw [chooseQuote]
  split
  · exact Or.inr rfl
  · exact Or.inl rfl

/-- Rebuilding a string from its character list is the identity. -/
theorem string_mk_toList (s : String) : String.mk s.toList = s := rfl

/-- One unfolding step of the string-body parser on a non-empty
input. -/
theorem parseStrBody_cons (q c : Char) (rest : List Char) :
    parseStrBody q (c :: rest) =
      if c = q then some ([], rest)
      else if c = '\\' then
        (match rest with
         | [] => none
         | e :: rest2 =>
           if e = '\\' ∨ e = '\'' ∨ e = '"' then
             match parseStrBody q rest2 with
             | some (body, rem) => some (e :: body, rem)
             | none => none
           else none)
      else
        match parseStrBody q rest with
        | some (body, rem) => some (c :: body, rem)
        | none => none := by
  rw [parseStrBody.eq_def]

/-- Parsing an escaped string body followed by its closing quote
recovers the original characters. -/
theorem parseStrBody_round (q : Char) (hq : q = '\'' ∨ q = '"') :
    ∀ (s rest : List Char),
      parseStrBody q (s.flatMap (escChar q) ++ q :: rest) = some (s, rest) := by
  have hqb : q ≠ '\\' := by
    rcases hq with h | h <;> (rw [h]; decide)
  have hqesc : q = '\\' ∨ q = '\'' ∨ q = '"' := Or.inr hq
  intro s
  induction s with
  | nil =>
    intro rest
    rw [List.flatMap_nil, List.nil_append, parseStrBody_cons, if_pos rfl]
  | cons c cs ih =>
    intro rest
    by_cases hcb : c = '\\'
    · subst hcb
      simp [List.flatMap_cons, escChar, parseStrBody_cons, Ne.symm hqb, ih rest]
    · by_cases hcq : c = q
      · simp [List.flatMap_cons, escChar, hcb, hcq, hqb, parseStrBody_cons,
              Ne.symm hqb, hqesc, ih rest]
        tauto
      · simp [List.flatMap_cons, escChar, hcb, hcq, parseStrBody_cons, ih rest]

/-- Parsing a serialized string recovers it, leaving the following
input untouched. -/
theorem parseStrChars_round (k : String) (rest : List Char) :
    ∃ q cs, strChars k.toList ++ rest = q :: cs
      ∧ (q = '\'' ∨ q = '"')
      ∧ parseStrBody q cs = some (k.toList, rest) := by
  refine ⟨chooseQuote k.toList,
          (k.toList.flatMap (escChar (chooseQuote k.toList))
            ++ [chooseQuote k.toList]) ++ rest,
          by rw [strChars]; rfl, chooseQuote_spec k.toList, ?_⟩
  rw [List.append_assoc, List.singleton_append]
  exact parseStrBody_round (chooseQuote k.toList)
    (chooseQuote_spec k.toList) k.toList rest

/-- Parsing a serialized dict key recovers it. -/
theorem parseKeyChars_round (k : String) (rest : List Char) :
    parseKeyChars (strChars k.toList ++ rest) = some (k, rest) := by
  obtain ⟨q, cs, heq, hq, hbody⟩ := parseStrChars_round k rest
  rw [heq, parseKeyChars, if_pos hq, hbody]
  simp [string_mk_toList]

/-- A digit character is not a quote, a bracket, a space or a
brace. -/
theorem digit_not_special {c : Char} (h : isDigitCh c = true) :
    c ≠ '\'' ∧ c ≠ '"' ∧ c ≠ '[' ∧ c ≠ ' ' ∧ c ≠ '\x7d' ∧ c ≠ ',' := by
  refine ⟨?_, ?_, ?_, ?_, ?_, ?_⟩ <;>
    (intro hc; subst hc; exact absurd h (by decide))

/-- Parsing a serialized scalar recovers it, provided the following
input does not start with a digit. -/
theorem parseScalarChars_round (v : Scalar) (rest : List Char)
    (hrest : ∀ c, rest.head? = some c → isDigitCh c = false) :
    parseScalarChars (scalarChars v ++ rest) = some (v, rest) := by
  cases v with
  | str s =>
    obtain ⟨q, cs, heq, hq, hbody⟩ := parseStrChars_round s rest
    show parseScalarChars (strChars s.toList ++ rest) = some (Scalar.str s, rest)
    rw [heq, parseScalarChars, if_pos hq, hbody]
    simp [string_mk_toList]
  | int i =>
    obtain ⟨c, cs, hcons, hhead⟩ :
        ∃ c cs, intChars i = c :: cs ∧ (c = '-' ∨ isDigitCh c = true) := by
      cases i with
      | ofNat n =>
        obtain ⟨c, cs, h⟩ : ∃ c cs, natChars n = c :: cs := by
          cases h : natChars n with
          | nil => exact absurd h (natChars_ne_nil n)
          | cons c cs => exact ⟨c, cs, rfl⟩
        exact ⟨c, cs, h, Or.inr (natChars_digits n c
          (by rw [h]; exact List.mem_cons_self c cs))⟩
      | negSucc m => exact ⟨'-', natChars (m + 1), rfl, Or.inl rfl⟩
    have hnq : ¬ (c = '\'' ∨ c = '"') := by
      rcases hhead with h | h
      · subst h; decide
      · exact fun hc => by
          rcases hc with hc | hc
          · exact (digit_not_special h).1 hc
          · exact (digit_not_special h).2.1 hc
    show parseScalarChars (intChars i ++ rest) = some (Scalar.int i, rest)
    rw [hcons]
    show parseScalarChars (c :: (cs ++ rest)) = some (Scalar.int i, rest)
    rw [parseScalarChars, if_neg hnq, if_pos hhead, ← List.cons_append,
        ← hcons, parseIntChars_round i rest hrest]
    rfl

/-- Skipping spaces stops at a non-space character. -/
theorem skipSp_cons_of_ne {c : Char} (l : List Char) (h : c ≠ ' ') :
    skipSp (c :: l) = c :: l := by
  rw [skipSp, List.dropWhile_cons]
  simp [h]

/-- Skipping spaces consumes a leading space. -/
theorem skipSp_space (l : List Char) : skipSp (' ' :: l) = skipSp l := by
  rw [skipSp, List.dropWhile_cons]
  simp [skipSp]

/-- Skipping spaces leaves the empty input unchanged. -/
theorem skipSp_nil : skipSp [] = [] := rfl

/-- A serialized scalar starts with a quote, a minus sign or a
digit. -/
theorem scalarChars_head (v : Scalar) :
    ∃ c cs, scalarChars v = c :: cs
      ∧ (c = '\'' ∨ c = '"' ∨ c = '-' ∨ isDigitCh c = true) := by
  cases v with
  | str s =>
    refine ⟨chooseQuote s.toList,
      s.toList.flatMap (escChar (chooseQuote s.toList)) ++ [chooseQuote s.toList],
      by rw [scalarChars, strChars], ?_⟩
    rcases chooseQuote_spec s.toList with h | h
    · exact Or.inl h
    · exact Or.inr (Or.inl h)
  | int i =>
    cases i with
    | ofNat n =>
      obtain ⟨c, cs, h⟩ : ∃ c cs, natChars n = c :: cs := by
        cases h : natChars n with
        | nil => exact absurd h (natChars_ne_nil n)
        | cons c cs => exact ⟨c, cs, rfl⟩
      refine ⟨c, cs, h, Or.inr (Or.inr (Or.inr ?_))⟩
      exact natChars_digits n c (by rw [h]; exact List.mem_cons_self c cs)
    | negSucc m =>
      exact ⟨'-', natChars (m + 1), rfl, Or.inr (Or.inr (Or.inl rfl))⟩

/-- A serialized scalar starts with a character that is neither a
space nor an opening bracket. -/
theorem scalarChars_head_props (v : Scalar) :
    ∃ c cs, scalarChars v = c :: cs ∧ c ≠ ' ' ∧ c ≠ '[' := by
  obtain ⟨c, cs, h, hc⟩ := scalarChars_head v
  refine ⟨c, cs, h, ?_, ?_⟩ <;>
    (rcases hc with h1 | h1 | h1 | h1
     · subst h1; decide
     · subst h1; decide
     · subst h1; decide
     · intro h2
       subst h2
       exact absurd h1 (by decide))

/-- Skipping spaces does not touch a serialized scalar. -/
theorem skipSp_scalarChars (v : Scalar) (X : List Char) :
    skipSp (scalarChars v ++ X) = scalarChars v ++ X := by
  obtain ⟨c, cs, h, hsp, _⟩ := scalarChars_head_props v
  rw [h]
  show skipSp (c :: (cs ++ X)) = c :: (cs ++ X)
  exact skipSp_cons_of_ne _ hsp

/-- Parsing a serialized scalar value recovers it, provided the
following input does not start with a digit. -/
theorem parseValueChars_scalar_round (v : Scalar) (rest : List Char)
    (hrest : ∀ c, rest.head? = some c → isDigitCh c = false) :
    parseValueChars (valueChars (Value.scalar v) ++ rest)
      = some (Value.scalar v, rest) := by
  obtain ⟨c, cs, hcons, _, hbr⟩ := scalarChars_head_props v
  show parseValueChars (scalarChars v ++ rest) = some (Value.scalar v, rest)
  rw [hcons]
  show parseValueChars (c :: (cs ++ rest)) = some (Value.scalar v, rest)
  dsimp only [parseValueChars]
  rw [if_neg hbr, ← List.cons_append, ← hcons,
      parseScalarChars_round v rest hrest]
  rfl

/-- A head-character test against a literal cons cell. -/
theorem noDigit_head_cons {c0 : Char} (h : isDigitCh c0 = false)
    (l : List Char) :
    ∀ c, (c0 :: l).head? = some c → isDigitCh c = false := by
  intro c hc
  rw [List.head?_cons, Option.some.injEq] at hc
  rw [← hc]
  exact h

/-- No head-character test fails on the empty input. -/
theorem noDigit_head_nil :
    ∀ c, ([] : List Char).head? = some c → isDigitCh c = false := by
  intro c hc
  cases hc

/-- A serialized dict entry starts with the quote chosen for its
key. -/
theorem entryChars_head (e : String × Value) :
    ∃ cs, entryChars e = chooseQuote e.1.toList :: cs
      ∧ (chooseQuote e.1.toList = '\'' ∨ chooseQuote e.1.toList = '"') := by
  refine ⟨(e.1.toList.flatMap (escChar (chooseQuote e.1.toList))
      ++ [chooseQuote e.1.toList]) ++ (':' :: ' ' :: valueChars e.2),
    ?_, chooseQuote_spec e.1.toList⟩
  rw [entryChars, strChars]
  rfl

/-- Serialized dict entries start with a quote character. -/
theorem entriesChars_head (e : String × Value) (es : List (String × Value)) :
    ∃ c cs, entriesChars (e :: es) = c :: cs ∧ (c = '\'' ∨ c = '"') := by
  obtain ⟨cs, he, hq⟩ := entryChars_head e
  cases es with
  | nil =>
    exact ⟨chooseQuote e.1.toList, cs, by rw [entriesChars, he], hq⟩
  | cons e2 es' =>
    refine ⟨chooseQuote e.1.toList,
      cs ++ (',' :: ' ' :: entriesChars (e2 :: es')), ?_, hq⟩
    rw [show entriesChars (e :: e2 :: es')
        = entryChars e ++ (',' :: ' ' :: entriesChars (e2 :: es')) from rfl, he]
    rfl

/-- Skipping spaces does not touch serialized dict entries. -/
theorem skipSp_entriesChars (e : String × Value)
    (es : List (String × Value)) (X : List Char) :
    skipSp (entriesChars (e :: es) ++ X) = entriesChars (e :: es) ++ X := by
  obtain ⟨c, cs, h, hq⟩ := entriesChars_head e es
  rw [h]
  show skipSp (c :: (cs ++ X)) = c :: (cs ++ X)
  rcases hq with h1 | h1 <;> (subst h1; exact skipSp_cons_of_ne _ (by decide))

/-- The entry count of a dict never exceeds its serialized length plus
one. -/
theorem entriesChars_length (es : List (String × Value)) :
    es.length ≤ (entriesChars es).length + 1 := by
  induction es with
  | nil => simp [entriesChars]
  | cons e es ih =>
    cases es with
    | nil => simp [entriesChars]
    | cons e2 es' =>
      rw [show entriesChars (e :: e2 :: es')
          = entryChars e ++ (',' :: ' ' :: entriesChars (e2 :: es')) from rfl]
      simp only [List.length_append, List.length_cons] at ih ⊢
      omega


/-- Skipping spaces does not touch a serialized scalar value. -/
theorem skipSp_valueChars_scalar (v : Scalar) (X : List Char) :
    skipSp (valueChars (Value.scalar v) ++ X)
      = valueChars (Value.scalar v) ++ X :=
  skipSp_scalarChars v X

/-- Parsing the serialized entries of a non-empty scalar-valued dict,
followed by the closing brace, recovers the entries.  The fuel only
needs to cover the number of entries. -/
theorem parseEntriesAux_round :
    ∀ (es : List (String × Value)) (fuel : Nat) (rem : List Char),
      es ≠ [] → es.length ≤ fuel →
      (∀ e ∈ es, ∃ sc, e.2 = Value.scalar sc) →
      parseEntriesAux fuel (entriesChars es ++ '\x7d' :: rem)
        = some (es, rem) := by
  intro es
  induction es with
  | nil =>
    intro fuel rem h
    exact absurd rfl h
  | cons e es ih =>
    intro fuel rem _ hfuel hsc
    obtain ⟨fuel', rfl⟩ : ∃ f, fuel = f + 1 := by
      cases fuel with
      | zero => simp at hfuel
      | succ f => exact ⟨f, rfl⟩
    obtain ⟨sc, hv⟩ := hsc e (List.mem_cons_self e es)
    have hkey := parseKeyChars_round e.1
    have hval := parseValueChars_scalar_round sc
    cases es with
    | nil =>
      rw [entriesChars, entryChars, hv]
      have hassoc :
          (strChars e.1.toList ++ (':' :: ' ' :: valueChars (Value.scalar sc)))
              ++ '\x7d' :: rem
            = strChars e.1.toList
              ++ (':' :: ' ' :: (valueChars (Value.scalar sc)
                    ++ '\x7d' :: rem)) := by
        simp [List.append_assoc]
      rw [hassoc, parseEntriesAux,
          hkey (':' :: ' ' :: (valueChars (Value.scalar sc) ++ '\x7d' :: rem))]
      dsimp only
      rw [skipSp_cons_of_ne _ (by decide : (':' : Char) ≠ ' ')]
      dsimp only
      rw [if_pos rfl, skipSp_space, skipSp_valueChars_scalar,
          hval ('\x7d' :: rem) (noDigit_head_cons (by decide) rem)]
      dsimp only
      rw [skipSp_cons_of_ne _ (by decide : ('\x7d' : Char) ≠ ' ')]
      dsimp only
      rw [if_pos rfl, ← hv]
    | cons e2 es' =>
      rw [show entriesChars (e :: e2 :: es')
          = entryChars e ++ (',' :: ' ' :: entriesChars (e2 :: es')) from rfl,
        entryChars, hv]
      have hassoc :
          ((strChars e.1.toList ++ (':' :: ' ' :: valueChars (Value.scalar sc)))
              ++ (',' :: ' ' :: entriesChars (e2 :: es'))) ++ '\x7d' :: rem
            = strChars e.1.toList
              ++ (':' :: ' ' :: (valueChars (Value.scalar sc)
                    ++ ',' :: ' ' :: (entriesChars (e2 :: es')
                      ++ '\x7d' :: rem))) := by
        simp [List.append_assoc]
      rw [hassoc, parseEntriesAux,
          hkey (':' :: ' ' :: (valueChars (Value.scalar sc)
            ++ ',' :: ' ' :: (entriesChars (e2 :: es') ++ '\x7d' :: rem)))]
      dsimp only
      rw [skipSp_cons_of_ne _ (by decide : (':' : Char) ≠ ' ')]
      dsimp only
      rw [if_pos rfl, skipSp_space, skipSp_valueChars_scalar,
          hval (',' :: ' ' :: (entriesChars (e2 :: es') ++ '\x7d' :: rem))
            (noDigit_head_cons (by decide) _)]
      dsimp only
      rw [skipSp_cons_of_ne _ (by decide : (',' : Char) ≠ ' ')]
      dsimp only
      rw [if_neg (by decide : ¬ (',' : Char) = '\x7d'), if_pos rfl,
          skipSp_space, skipSp_entriesChars]
      rw [ih fuel' rem (List.cons_ne_nil e2 es') (by simp at hfuel ⊢; omega)
          (fun x hx => hsc x (List.mem_cons_of_mem e hx))]
      dsimp only
      rw [← hv]

/-- An ASCII-scalar value is a scalar. -/
theorem asciiScalarValue_scalar {v : Value} (h : asciiScalarValue v) :
    ∃ sc, v = Value.scalar sc := by
  cases v with
  | scalar sc => exact ⟨sc, rfl⟩
  | list vs => exact absurd h id

/-- C4: for every filter mapping whose keys and values lie in the
ASCII-scalar literal subset, parsing the textual literal form of the
mapping — as the query submitter does via `literal_eval` — yields
exactly the same mapping back, so re-serializing the parse result
reproduces the text: a round-trip identity on the literal-expression
subset used. -/
theorem literal_roundtrip (f : List (String × Value))
    (hent : ∀ e ∈ f, asciiScalarEntry e) :
    literalEvalFilter (filterText f) = some f
    ∧ ∀ g, literalEvalFilter (filterText f) = some g
        → filterText g = filterText f := by
  have hsc : ∀ x ∈ f, ∃ sc, x.2 = Value.scalar sc :=
    fun x hx => asciiScalarValue_scalar (hent x hx).2
  have hmain : literalEvalFilter (filterText f) = some f := by
    rw [literalEvalFilter]
    have h0 : (filterText f).toList = filterChars f := rfl
    rw [h0, filterChars,
        skipSp_cons_of_ne _ (by decide : ('\x7b' : Char) ≠ ' ')]
    dsimp only
    rw [if_pos rfl]
    cases f with
    | nil =>
      rw [show entriesChars [] = [] from rfl, List.nil_append,
          skipSp_cons_of_ne _ (by decide : ('\x7d' : Char) ≠ ' ')]
      dsimp only
      rw [if_pos rfl]
      rfl
    | cons e es =>
      rw [skipSp_entriesChars e es ['\x7d']]
      obtain ⟨c, cs, heq, hq⟩ := entriesChars_head e es
      rw [heq]
      show (match c :: (cs ++ ['\x7d']) with
            | [] => none
            | c2 :: rem =>
              if c2 = '\x7d' then
                (if (skipSp rem).isEmpty then some [] else none)
              else
                match parseEntriesAux ((c2 :: rem).length + 1) (c2 :: rem) with
                | some (es, rem2) =>
                  if (skipSp rem2).isEmpty then some es else none
                | none => none)
          = some (e :: es)
      dsimp only
      rw [if_neg (by rcases hq with h1 | h1 <;> (subst h1; decide))]
      rw [show (c :: (cs ++ ['\x7d']))
          = entriesChars (e :: es) ++ '\x7d' :: [] from by
            rw [heq, List.cons_append]]
      rw [parseEntriesAux_round (e :: es) _ [] (List.cons_ne_nil e es)
          (by have h1 := entriesChars_length (e :: es)
              simp only [List.length_append, List.length_cons,
                List.length_nil] at h1 ⊢
              omega)
          hsc]
      dsimp only
      rfl
  refine ⟨hmain, fun g hg => ?_⟩
  rw [hmain, Option.some.injEq] at hg
  rw [hg]

/-- Closed instance of `literal_roundtrip` at the notebook's own
example filter text. -/
theorem literal_roundtrip_witness :
    (∀ e ∈ ([("standard_name", Value.scalar (Scalar.str "air_temperature")),
             ("attributes.STASH", Value.scalar (Scalar.int 463))]
            : List (String × Value)),
        asciiScalarEntry e)
    ∧ (literalEvalFilter (filterText
        [("standard_name", Value.scalar (Scalar.str "air_temperature")),
         ("attributes.STASH", Value.scalar (Scalar.int 463))])
        = some [("standard_name", Value.scalar (Scalar.str "air_temperature")),
                ("attributes.STASH", Value.scalar (Scalar.int 463))]
      ∧ ∀ g, literalEvalFilter (filterText
          [("standard_name", Value.scalar (Scalar.str "air_temperature")),
           ("attributes.STASH", Value.scalar (Scalar.int 463))])
          = some g
        → filterText g = filterText
            [("standard_name", Value.scalar (Scalar.str "air_temperature")),
             ("attributes.STASH", Value.scalar (Scalar.int 463))]) :=
  ⟨by decide,
   literal_roundtrip
     [("standard_name", Value.scalar (Scalar.str "air_temperature")),
      ("attributes.STASH", Value.scalar (Scalar.int 463))]
     (by decide)⟩
